import Mathlib

/-!
Shallow embedding of the raytracer core (surfaces, intersection dispatcher,
shadow sampler, shading engine) over exact rationals.

Modelling conventions:
* Python floats are modelled as `ℚ`; the float literals `0.0001`, `1e-6` and
  `0.001` become the exact rationals `1/10000`, `1/1000000` and `1/1000`.
* `numpy.sqrt` / `numpy.linalg.norm` have no exact rational counterpart, so
  every definition that takes a square root receives an explicit oracle
  `sq : ℚ → ℚ`; theorems assume the oracle is an exact square root at the
  points where the source takes one (`sq v * sq v = v`), and witnesses use a
  concrete oracle on perfect squares.
* `np.random.random()` is modelled by an explicit stream `rand : ℕ → ℚ`
  indexed by draw order inside one shadow query.
* the `while` loop of `_trace_shadow_ray` is modelled with explicit fuel; the
  function it calls, `find_nearest_intersection` from `lighting.py`, is kept
  as an abstract parameter (Python resolves it by name at call time) and the
  engine instantiates it with the module-level placeholder, exactly as the
  source does.
-/

namespace Raytracer

/-- Vector of three rationals, standing for the numpy 3-arrays of the source. -/
structure Vec3 where
  x : ℚ
  y : ℚ
  z : ℚ
deriving DecidableEq

namespace Vec3

def add (a b : Vec3) : Vec3 := ⟨a.x + b.x, a.y + b.y, a.z + b.z⟩

def sub (a b : Vec3) : Vec3 := ⟨a.x - b.x, a.y - b.y, a.z - b.z⟩

def neg (a : Vec3) : Vec3 := ⟨-a.x, -a.y, -a.z⟩

/-- Componentwise product, the numpy `*` on arrays. -/
def hmul (a b : Vec3) : Vec3 := ⟨a.x * b.x, a.y * b.y, a.z * b.z⟩

def smul (q : ℚ) (a : Vec3) : Vec3 := ⟨q * a.x, q * a.y, q * a.z⟩

def dot (a b : Vec3) : ℚ := a.x * b.x + a.y * b.y + a.z * b.z

def cross (a b : Vec3) : Vec3 :=
  ⟨a.y * b.z - a.z * b.y, a.z * b.x - a.x * b.z, a.x * b.y - a.y * b.x⟩

end Vec3

instance : Add Vec3 := ⟨Vec3.add⟩

instance : Sub Vec3 := ⟨Vec3.sub⟩

instance : Neg Vec3 := ⟨Vec3.neg⟩

instance : Mul Vec3 := ⟨Vec3.hmul⟩

instance : SMul ℚ Vec3 := ⟨Vec3.smul⟩

instance : Zero Vec3 := ⟨⟨0, 0, 0⟩⟩

@[simp] theorem Vec3.add_def (a b : Vec3) : a + b = ⟨a.x + b.x, a.y + b.y, a.z + b.z⟩ := rfl

@[simp] theorem Vec3.sub_def (a b : Vec3) : a - b = ⟨a.x - b.x, a.y - b.y, a.z - b.z⟩ := rfl

@[simp] theorem Vec3.neg_def (a : Vec3) : -a = ⟨-a.x, -a.y, -a.z⟩ := rfl

@[simp] theorem Vec3.mul_def (a b : Vec3) : a * b = ⟨a.x * b.x, a.y * b.y, a.z * b.z⟩ := rfl

@[simp] theorem Vec3.smul_def (q : ℚ) (a : Vec3) : q • a = ⟨q * a.x, q * a.y, q * a.z⟩ := rfl

@[simp] theorem Vec3.zero_def : (0 : Vec3) = ⟨0, 0, 0⟩ := rfl

/-- Self-intersection epsilon: the uniform `0.0001` of the source. -/
def epsHit : ℚ := 1 / 10000

/-- Parallelism epsilon: the uniform `1e-6` of the source. -/
def epsPar : ℚ := 1 / 1000000

/-- Square-root oracle standing for `numpy.sqrt` on the rationals the code
feeds it. -/
abbrev SqrtFn := ℚ → ℚ

/-- Source `mathutils.normalize` (also `Ray.normalize` and
`LightingEngine.normalize`, which are textually identical): divide by the
norm unless the norm is zero, in which case the vector is returned
unchanged. -/
def normalize (sq : SqrtFn) (v : Vec3) : Vec3 :=
  let n := sq (v.dot v)
  if n = 0 then v else (1 / n) • v

/-- Source `ray.Ray`: an origin and a direction. -/
structure Ray where
  origin : Vec3
  direction : Vec3
deriving DecidableEq

/-- Source `Ray.__init__`: the direction is normalized once, at construction. -/
def mkRay (sq : SqrtFn) (o d : Vec3) : Ray := ⟨o, normalize sq d⟩

/-- Source `Ray.point_at`: `origin + t * direction`. -/
def Ray.pointAt (r : Ray) (t : ℚ) : Vec3 := r.origin + t • r.direction

/-- Source `intersection.Intersection` as produced by a surface's own
`intersect` (the `surface` field is attached later by the dispatcher). -/
structure Hit where
  hitPoint : Vec3
  normal : Vec3
  distance : ℚ
deriving DecidableEq

/-- Source `surfaces.sphere.Sphere`. -/
structure Sphere where
  position : Vec3
  radius : ℚ
  material_index : ℕ
deriving DecidableEq

/-- Source `Sphere.get_normal`: `(point - center) / radius`. -/
def Sphere.get_normal (s : Sphere) (p : Vec3) : Vec3 :=
  (1 / s.radius) • (p - s.position)

/-- Source `Sphere.intersect`: quadratic solve, keep the first of `t1, t2`
that exceeds `0.0001`. -/
def Sphere.intersect (sq : SqrtFn) (s : Sphere) (r : Ray) : Option Hit :=
  let oc := r.origin - s.position
  let a := r.direction.dot r.direction
  let b := 2 * oc.dot r.direction
  let c := oc.dot oc - s.radius ^ 2
  let disc := b ^ 2 - 4 * a * c
  if disc < 0 then none
  else
    let sd := sq disc
    let t1 := (-b - sd) / (2 * a)
    let t2 := (-b + sd) / (2 * a)
    if t1 > epsHit then some ⟨r.pointAt t1, s.get_normal (r.pointAt t1), t1⟩
    else if t2 > epsHit then some ⟨r.pointAt t2, s.get_normal (r.pointAt t2), t2⟩
    else none

/-- Source `surfaces.infinite_plane.InfinitePlane`. -/
structure InfinitePlane where
  normal : Vec3
  offset : ℚ
  material_index : ℕ
deriving DecidableEq

/-- Source `InfinitePlane.get_normal`: the stored normal, normalized. -/
def InfinitePlane.get_normal (sq : SqrtFn) (p : InfinitePlane) : Vec3 :=
  normalize sq p.normal

/-- Source `InfinitePlane.intersect`: parallel guard at `1e-6`, then
`t = (offset - O·N) / denom` with the behind-origin guard at `0.0001`. -/
def InfinitePlane.intersect (sq : SqrtFn) (p : InfinitePlane) (r : Ray) : Option Hit :=
  let nn := normalize sq p.normal
  let denom := r.direction.dot nn
  if |denom| < epsPar then none
  else
    let t := (p.offset - r.origin.dot nn) / denom
    if t < epsHit then none
    else some ⟨r.pointAt t, p.get_normal sq, t⟩

/-- Source `surfaces.cube.Cube` (`position` is the center, `scale` the edge
length). -/
structure Cube where
  position : Vec3
  scale : ℚ
  material_index : ℕ
deriving DecidableEq

/-- Component access `v[i]` for the three axes. -/
def axisVal (v : Vec3) (i : ℕ) : ℚ :=
  match i with
  | 0 => v.x
  | 1 => v.y
  | 2 => v.z
  | _ => 0

/-- The face normal the cube loop records on axis `i`:
`-1` on that axis if the ray's direction component is positive, else `1`. -/
def axisNormal (i : ℕ) (d : ℚ) : Vec3 :=
  let s : ℚ := if d > 0 then -1 else 1
  match i with
  | 0 => ⟨s, 0, 0⟩
  | 1 => ⟨0, s, 0⟩
  | 2 => ⟨0, 0, s⟩
  | _ => ⟨0, 0, 0⟩

/-- Running state of the slab loop; `none` for `t_min` stands for the initial
`-inf`, for `t_max` the initial `+inf`. -/
structure SlabState where
  tmin : Option ℚ
  tmax : Option ℚ
  nrm : Vec3
deriving DecidableEq

/-- The loop's `t1 > t_min` test against a possibly-infinite running bound. -/
def tLtMin : Option ℚ → ℚ → Bool
  | none, _ => true
  | some m, t => decide (t > m)

/-- The loop's `t2 < t_max` test against a possibly-infinite running bound. -/
def tGtMax : Option ℚ → ℚ → Bool
  | none, _ => true
  | some m, t => decide (t < m)

/-- The loop's `t_min > t_max` overlap test. -/
def minGtMax : Option ℚ → Option ℚ → Bool
  | some a, some b => decide (a > b)
  | _, _ => false

/-- The source's `min_bound[i]`: `position - scale/2` on axis `i`. -/
def slabLo (c : Cube) (i : ℕ) : ℚ := axisVal c.position i - c.scale / 2

/-- The source's `max_bound[i]`: `position + scale/2` on axis `i`. -/
def slabHi (c : Cube) (i : ℕ) : ℚ := axisVal c.position i + c.scale / 2

/-- The per-axis slab entry parameter: the smaller of `(min_i - O_i)/D_i` and
`(max_i - O_i)/D_i` (the source's `t1` after the swap). -/
def slabEntry (c : Cube) (r : Ray) (i : ℕ) : ℚ :=
  min ((slabLo c i - axisVal r.origin i) / axisVal r.direction i)
    ((slabHi c i - axisVal r.origin i) / axisVal r.direction i)

/-- The per-axis slab exit parameter (the source's `t2` after the swap). -/
def slabExit (c : Cube) (r : Ray) (i : ℕ) : ℚ :=
  max ((slabLo c i - axisVal r.origin i) / axisVal r.direction i)
    ((slabHi c i - axisVal r.origin i) / axisVal r.direction i)

theorem slabEntry_le_slabExit (c : Cube) (r : Ray) (i : ℕ) :
    slabEntry c r i ≤ slabExit c r i := min_le_max

/-- One iteration of the slab loop of `Cube.intersect` for axis `i`.
The source's swap `if t1 > t2: t1, t2 = t2, t1` is rendered by taking the
`min`/`max` of the two slab parameters (`slabEntry`/`slabExit`). -/
def slabStep (c : Cube) (r : Ray) (st : SlabState) (i : ℕ) : Option SlabState :=
  let d := axisVal r.direction i
  let o := axisVal r.origin i
  if |d| < epsPar then
    if o < slabLo c i ∨ o > slabHi c i then none else some st
  else
    let t1 := slabEntry c r i
    let t2 := slabExit c r i
    let st1 := if tLtMin st.tmin t1 then SlabState.mk (some t1) st.tmax (axisNormal i d) else st
    let st2 := if tGtMax st1.tmax t2 then SlabState.mk st1.tmin (some t2) st1.nrm else st1
    if minGtMax st2.tmin st2.tmax then none else some st2

/-- Source `Cube.intersect`: the slab loop over the three axes, then the
`t_min < 0.0001` fallback to `t_max`.  In the degenerate case where all three
axes are parallel and the origin is inside every slab the source would build
a hit at `t = +inf`; that unrepresentable case is rendered as no hit. -/
def Cube.intersect (c : Cube) (r : Ray) : Option Hit :=
  match ((slabStep c r ⟨none, none, ⟨0, 0, 0⟩⟩ 0).bind (fun s => slabStep c r s 1)).bind
      (fun s => slabStep c r s 2) with
  | none => none
  | some st =>
    match st.tmin, st.tmax with
    | some tmin, some tmax =>
      if tmin < epsHit then
        if tmax < epsHit then none
        else some ⟨r.pointAt tmax, st.nrm, tmax⟩
      else some ⟨r.pointAt tmin, st.nrm, tmin⟩
    | _, _ => none

/-- Closed union of the three surface variants, as dispatched on by
`isinstance` in the source. -/
inductive Surface where
  | sph : Sphere → Surface
  | pln : InfinitePlane → Surface
  | box : Cube → Surface
deriving DecidableEq

def Surface.material_index : Surface → ℕ
  | .sph s => s.material_index
  | .pln p => p.material_index
  | .box c => c.material_index

/-- Dispatcher-level intersection record: a `Hit` plus the surface that was
hit, the dict `{'surface', 'hit_point', 'normal', 'distance'}` of the source. -/
structure SceneHit where
  surface : Surface
  hitPoint : Vec3
  normal : Vec3
  distance : ℚ
deriving DecidableEq

/-- Source `intersections.find_nearest_intersection`: the body is a TODO
placeholder that returns `None` unconditionally ("TODO: Implement
find_nearest_intersection ... return None  # Placeholder"). -/
def find_nearest_intersection (_r : Ray) (_surfaces : List Surface)
    (_ignore : Option Surface) : Option SceneHit :=
  none

/-- Source `lighting.find_nearest_intersection` (module level, the variant
taking ray components): also a placeholder, "TEMPORARY PLACEHOLDER - Remove
when Person 1's code is ready", returning `None` unconditionally. -/
def find_nearest_intersection_lighting (_origin _direction : Vec3)
    (_surfaces : List Surface) (_ignore : Option Surface) : Option SceneHit :=
  none

/-- Source `Material` (scene file `mtl` line): colors, shininess,
transparency.  The shininess exponent is modelled as a natural number. -/
structure Material where
  diffuse_color : Vec3
  specular_color : Vec3
  reflection_color : Vec3
  shininess : ℕ
  transparency : ℚ
deriving DecidableEq

/-- Source `Light` (scene file `lgt` line). -/
structure Light where
  position : Vec3
  color : Vec3
  specular_intensity : ℚ
  shadow_intensity : ℚ
  radius : ℚ
deriving DecidableEq

/-- Source `LightingEngine.__init__`: the engine's scene data
(`SceneSettings` fields are inlined as `background_color`, `max_recursion`
and `num_shadow_rays`, exactly the attributes the constructor keeps). -/
structure LightingEngine where
  background_color : Vec3
  max_recursion : ℕ
  num_shadow_rays : ℕ
  materials : List Material
  lights : List Light
  surfaces : List Surface
deriving DecidableEq

def defaultMaterial : Material := ⟨0, 0, 0, 0, 0⟩

/-- The 1-based lookup `self.materials[surface.material_index - 1]` of the
source (indices are in range for a validated scene). -/
def materialAt (mats : List Material) (idx : ℕ) : Material :=
  mats.getD (idx - 1) defaultMaterial

/-- Source `LightingEngine.reflect`:
`incident - 2 * dot(incident, normal) * normal`. -/
def reflect (incident normal : Vec3) : Vec3 :=
  incident - (2 * incident.dot normal) • normal

/-- Sum of a list of rationals, the `hits += ...` accumulation. -/
def qsum (l : List ℚ) : ℚ := l.sum

/-- Sum of a list of color vectors, the `diffuse_specular_color += ...`
accumulation. -/
def vsum (l : List Vec3) : Vec3 := l.foldl (fun a b => a + b) 0

/-- Source `LightingEngine._trace_shadow_ray`.  The `while` loop is rendered
with explicit fuel, and the dispatcher it consults
(`find_nearest_intersection`, resolved by name at call time in Python) is an
explicit parameter; the engine instantiates it with the module-level
placeholder below, as the source does. -/
def traceShadowRay (find : Vec3 → Vec3 → Option SceneHit) (mats : List Material) :
    ℕ → Vec3 → Vec3 → ℚ → ℚ → ℚ
  | 0, _, _, _, acc => acc
  | fuel + 1, origin, dir, remaining, acc =>
    if remaining > 1 / 1000 then
      match find origin dir with
      | none => acc
      | some h =>
        if h.distance > remaining then acc
        else
          let acc' := acc * (materialAt mats h.surface.material_index).transparency
          if acc' = 0 then 0
          else traceShadowRay find mats fuel (h.hitPoint + (1 / 1000 : ℚ) • dir) dir
            (remaining - (h.distance + 1 / 1000)) acc'
    else acc

/-- The reference axis the shadow sampler crosses the light direction with:
world-up when `abs(light_direction[0]) > 0.1`, world-X otherwise. -/
def shadowRef (lightDir : Vec3) : Vec3 :=
  if |lightDir.x| > 1 / 10 then ⟨0, 1, 0⟩ else ⟨1, 0, 0⟩

/-- The two in-plane sampling axes (`right`, `up`) built by
`compute_shadow_intensity` from the hit-to-light direction. -/
def shadowAxes (sq : SqrtFn) (lightDir : Vec3) : Vec3 × Vec3 :=
  let right := normalize sq (Vec3.cross lightDir (shadowRef lightDir))
  (right, normalize sq (Vec3.cross lightDir right))

/-- Source `LightingEngine.compute_shadow_intensity`: N×N stratified samples
over the light's square, each traced by `_trace_shadow_ray`, averaged into a
hit fraction and blended as
`(1 - light.shadow_intensity) + light.shadow_intensity * hit_ratio`. -/
def LightingEngine.computeShadowIntensity (sq : SqrtFn) (rand : ℕ → ℚ) (fuel : ℕ)
    (eng : LightingEngine) (hitPoint : Vec3) (light : Light) : ℚ :=
  let N := eng.num_shadow_rays
  let toLight := light.position - hitPoint
  let distToLight := sq (toLight.dot toLight)
  let lightDir := (1 / distToLight) • toLight
  let axes := shadowAxes sq lightDir
  let cellSize := light.radius / N
  let find := fun o d => find_nearest_intersection_lighting o d eng.surfaces none
  let visOf := fun (i j : ℕ) =>
    let offX := ((i : ℚ) + rand (2 * (i * N + j))) * cellSize - light.radius / 2
    let offY := ((j : ℚ) + rand (2 * (i * N + j) + 1)) * cellSize - light.radius / 2
    let sample := light.position + offX • axes.1 + offY • axes.2
    let toSample := sample - hitPoint
    let distToSample := sq (toSample.dot toSample)
    let sampleDir := (1 / distToSample) • toSample
    let shadowOrigin := hitPoint + (1 / 1000 : ℚ) • sampleDir
    traceShadowRay find eng.materials fuel shadowOrigin sampleDir distToSample 1
  let hits := qsum ((List.range N).map (fun i => qsum ((List.range N).map (fun j => visOf i j))))
  let hitFrac := hits / ((N : ℚ) * (N : ℚ))
  (1 - light.shadow_intensity) + light.shadow_intensity * hitFrac

/-- Source `LightingEngine.compute_light_contribution`: Phong shading of one
light, scaled by the shadow visibility, with the zero-visibility
short-circuit. -/
def LightingEngine.computeLightContribution (sq : SqrtFn) (rand : ℕ → ℚ) (fuel : ℕ)
    (eng : LightingEngine) (hitPoint normal viewDirection : Vec3)
    (material : Material) (light : Light) : Vec3 :=
  let lightDirection := normalize sq (light.position - hitPoint)
  let lightIntensity := eng.computeShadowIntensity sq rand fuel hitPoint light
  if lightIntensity = 0 then 0
  else
    let diffuseIntensity := max 0 (normal.dot lightDirection)
    let diffuseColor := diffuseIntensity • material.diffuse_color
    let reflectionDirection := reflect (-lightDirection) normal
    let viewDir := normalize sq (-viewDirection)
    let specularIntensity := (max 0 (viewDir.dot reflectionDirection)) ^ material.shininess
    let specularColor := (specularIntensity * light.specular_intensity) • material.specular_color
    let combined := light.color * (diffuseColor + specularColor)
    lightIntensity • combined

/-- Source `LightingEngine.compute_reflection`: a TODO placeholder returning
`np.zeros(3)`. -/
def LightingEngine.computeReflection (_eng : LightingEngine)
    (_hitPoint _incidentDirection _normal : Vec3) (_material : Material)
    (_depth : ℕ) : Vec3 :=
  0

/-- Source `LightingEngine.compute_transparency`: a TODO placeholder
returning `self.background_color`, with no recursion and no depth guard. -/
def LightingEngine.computeTransparency (eng : LightingEngine)
    (_hitPoint _rayDirection : Vec3) (_material : Material) (_depth : ℕ) : Vec3 :=
  eng.background_color

/-- The `diffuse_specular_color` accumulated over all lights in
`compute_color`. -/
def LightingEngine.directLighting (sq : SqrtFn) (rand : ℕ → ℚ) (fuel : ℕ)
    (eng : LightingEngine) (hitPoint normal rayDirection : Vec3)
    (material : Material) : Vec3 :=
  vsum (eng.lights.map (fun light =>
    eng.computeLightContribution sq rand fuel hitPoint normal rayDirection material light))

/-- The `reflection_color` variable of `compute_color`: zero unless the
material has a positive reflection channel and the recursion limit is not
reached (`recursion_depth < self.max_recursion and np.any(... > 0)`). -/
def LightingEngine.reflectionTerm (eng : LightingEngine)
    (hitPoint rayDirection normal : Vec3) (material : Material) (depth : ℕ) : Vec3 :=
  if depth < eng.max_recursion ∧
      (0 < material.reflection_color.x ∨ 0 < material.reflection_color.y ∨
        0 < material.reflection_color.z) then
    eng.computeReflection hitPoint rayDirection normal material depth
  else 0

/-- The `background_color` variable of `compute_color`: zero unless
`material.transparency > 0`, in which case `compute_transparency` is
consulted (with no depth guard). -/
def LightingEngine.backgroundTerm (eng : LightingEngine)
    (hitPoint rayDirection : Vec3) (material : Material) (depth : ℕ) : Vec3 :=
  if 0 < material.transparency then
    eng.computeTransparency hitPoint rayDirection material depth
  else 0

/-- `np.clip(c, 0, 255)` on one channel. -/
def clipC (q : ℚ) : ℚ := min (max q 0) 255

/-- `np.clip(color, 0, 255)` componentwise. -/
def clip3 (v : Vec3) : Vec3 := ⟨clipC v.x, clipC v.y, clipC v.z⟩

/-- Source `LightingEngine.compute_color`: background on a miss, otherwise
the transparency composition
`background*t + diffuse_specular*(1-t) + reflection`, clamped to [0,255]. -/
def LightingEngine.computeColor (sq : SqrtFn) (rand : ℕ → ℚ) (fuel : ℕ)
    (eng : LightingEngine) (_rayOrigin rayDirection : Vec3)
    (intersectionData : Option SceneHit) (depth : ℕ) : Vec3 :=
  match intersectionData with
  | none => eng.background_color
  | some d =>
    let material := materialAt eng.materials d.surface.material_index
    let diffuseSpecular := eng.directLighting sq rand fuel d.hitPoint d.normal rayDirection material
    let reflectionC := eng.reflectionTerm d.hitPoint rayDirection d.normal material depth
    let backgroundC := eng.backgroundTerm d.hitPoint rayDirection material depth
    clip3 (material.transparency • backgroundC +
      (1 - material.transparency) • diffuseSpecular + reflectionC)

/-- Concrete square-root oracle, exact on the perfect squares the examples
use. -/
def exSqrt : SqrtFn := fun q =>
  if q = 0 then 0 else if q = 1 then 1 else if q = 4 then 2 else if q = 9 then 3 else 0

/-- Concrete random stream (its values are irrelevant to every example, which
all use area radius 0). -/
def exRand : ℕ → ℚ := fun _ => 0

/-- Unit sphere at the origin, material 1. -/
def exSphere : Sphere := ⟨⟨0, 0, 0⟩, 1, 1⟩

/-- The ray `origin=(0,0,5)`, `direction=(0,0,-1)` of the spec's examples. -/
def exRay : Ray := mkRay exSqrt ⟨0, 0, 5⟩ ⟨0, 0, -1⟩

/-- Claim C1: the spec says `find_nearest_intersection` scans all surfaces
except `ignore`, calls each surface's `intersect`, returns the nearest hit and
returns `None` exactly when no non-ignored surface reports a hit.  The code
violates this: both implementations of the dispatcher are placeholder stubs
returning `None` unconditionally, even on a scene whose single sphere reports
a hit at distance 4 on the given ray.  This contradicts the functions' own
docstrings, so the claim is recorded as a code bug; this theorem evaluates
the code at the failing input. -/
theorem claim1_find_nearest_code_bug :
    find_nearest_intersection exRay [Surface.sph exSphere] none = none ∧
    find_nearest_intersection_lighting ⟨0, 0, 5⟩ ⟨0, 0, -1⟩ [Surface.sph exSphere] none = none ∧
    Sphere.intersect exSqrt exSphere exRay = some ⟨⟨0, 0, 1⟩, ⟨0, 0, 1⟩, 4⟩ := by
  refine ⟨rfl, rfl, ?_⟩
  with_unfolding_all rfl

/-- Oracle that is an exact square root at `0` (and nowhere else relevant). -/
def zeroSqrt : SqrtFn := fun _ => 0

/-- Claim C9 counterexample: the constructor accepts the zero direction
vector (its `normalize` returns a zero-length vector unchanged), so not every
accepted direction ends up unit length: `Ray((1,2,3), (0,0,0))` stores the
zero direction, whose squared norm is 0, not 1 — even though the oracle is an
exact square root at the only point used, `|d|² = 0`. -/
theorem claim9_counterexample :
    zeroSqrt ((⟨0, 0, 0⟩ : Vec3).dot ⟨0, 0, 0⟩) * zeroSqrt ((⟨0, 0, 0⟩ : Vec3).dot ⟨0, 0, 0⟩) =
      (⟨0, 0, 0⟩ : Vec3).dot ⟨0, 0, 0⟩ ∧
    (mkRay zeroSqrt ⟨1, 2, 3⟩ ⟨0, 0, 0⟩).direction = ⟨0, 0, 0⟩ ∧
    ¬ (mkRay zeroSqrt ⟨1, 2, 3⟩ ⟨0, 0, 0⟩).direction.dot
        (mkRay zeroSqrt ⟨1, 2, 3⟩ ⟨0, 0, 0⟩).direction = 1 := by
  refine ⟨by with_unfolding_all rfl, by with_unfolding_all rfl, ?_⟩
  norm_num [mkRay, normalize, zeroSqrt, Vec3.dot]

/-- Key fact about `normalize`: on a vector of nonzero squared norm, with an
exact square root, the result has squared norm 1. -/
theorem normalize_dot_self (sq : SqrtFn) (v : Vec3)
    (hnz : v.dot v ≠ 0) (hsq : sq (v.dot v) * sq (v.dot v) = v.dot v) :
    (normalize sq v).dot (normalize sq v) = 1 := by
  have hs : sq (v.dot v) ≠ 0 := by
    intro h
    exact hnz (by rw [← hsq, h, mul_zero])
  show (if sq (v.dot v) = 0 then v else (1 / sq (v.dot v)) • v).dot
      (if sq (v.dot v) = 0 then v else (1 / sq (v.dot v)) • v) = 1
  rw [if_neg hs]
  rcases v with ⟨a, b, c⟩
  simp only [Vec3.dot] at hsq hs
  simp only [Vec3.smul_def, Vec3.dot]
  field_simp
  linear_combination -hsq

/-- Claim C9 (amended): for every direction of nonzero length, the
constructed ray's direction is unit length (squared norm 1) under an exact
square root, and the origin is stored unchanged; normalization happens once,
at construction. -/
theorem claim9_ray_unit_direction (sq : SqrtFn) (o d : Vec3)
    (hnz : d.dot d ≠ 0) (hsq : sq (d.dot d) * sq (d.dot d) = d.dot d) :
    (mkRay sq o d).direction.dot (mkRay sq o d).direction = 1 ∧
    (mkRay sq o d).origin = o :=
  ⟨normalize_dot_self sq d hnz hsq, rfl⟩

/-- Witness for C9: the amended theorem applied at the concrete example ray. -/
theorem claim9_ray_unit_direction_witness :
    ((⟨0, 0, -1⟩ : Vec3).dot ⟨0, 0, -1⟩ ≠ 0) ∧
    ((mkRay exSqrt ⟨0, 0, 5⟩ ⟨0, 0, -1⟩).direction.dot
        (mkRay exSqrt ⟨0, 0, 5⟩ ⟨0, 0, -1⟩).direction = 1 ∧
      (mkRay exSqrt ⟨0, 0, 5⟩ ⟨0, 0, -1⟩).origin = ⟨0, 0, 5⟩) :=
  ⟨by norm_num [Vec3.dot], claim9_ray_unit_direction exSqrt ⟨0, 0, 5⟩ ⟨0, 0, -1⟩
    (by norm_num [Vec3.dot]) (by with_unfolding_all rfl)⟩

@[simp] theorem Vec3.zero_smul (v : Vec3) : (0 : ℚ) • v = 0 := by
  simp [Vec3.smul_def]

@[simp] theorem Vec3.one_smul (v : Vec3) : (1 : ℚ) • v = v := by
  simp [Vec3.smul_def]

@[simp] theorem Vec3.smul_zero (q : ℚ) : q • (0 : Vec3) = 0 := by
  simp [Vec3.smul_def]

@[simp] theorem Vec3.add_zero (v : Vec3) : v + 0 = v := by
  simp [Vec3.add_def]

@[simp] theorem Vec3.zero_add (v : Vec3) : 0 + v = v := by
  simp [Vec3.add_def]

/-- With the placeholder dispatcher of `lighting.py` (which never reports a
hit) the shadow-ray walk terminates immediately and returns its accumulated
transmittance unchanged, whatever the fuel. -/
theorem traceShadowRay_placeholder (surfs : List Surface) (ign : Option Surface)
    (mats : List Material) (fuel : ℕ) (o d : Vec3) (rem acc : ℚ) :
    traceShadowRay (fun o' d' => find_nearest_intersection_lighting o' d' surfs ign)
      mats fuel o d rem acc = acc := by
  cases fuel with
  | zero => rfl
  | succ n =>
    simp only [traceShadowRay, find_nearest_intersection_lighting]
    split <;> rfl

theorem qsum_map_const (n : ℕ) (c : ℚ) :
    qsum ((List.range n).map (fun _ => c)) = (n : ℚ) * c := by
  simp [qsum, List.map_const', nsmul_eq_mul]

/-- The shadow sampler of the source always reports full visibility: every
per-sample trace consults the placeholder dispatcher, so every sample counts
as a hit and the blend `(1-s) + s*1` collapses to `1`. -/
theorem computeShadowIntensity_placeholder (sq : SqrtFn) (rand : ℕ → ℚ) (fuel : ℕ)
    (eng : LightingEngine) (hitPoint : Vec3) (light : Light)
    (hN : 1 ≤ eng.num_shadow_rays) :
    eng.computeShadowIntensity sq rand fuel hitPoint light = 1 := by
  have hNq : ((eng.num_shadow_rays : ℚ)) ≠ 0 := by
    have h0 : (0 : ℚ) < (eng.num_shadow_rays : ℚ) := by
      exact_mod_cast Nat.lt_of_lt_of_le Nat.zero_lt_one hN
    exact h0.ne'
  simp only [LightingEngine.computeShadowIntensity, traceShadowRay_placeholder,
    qsum_map_const, mul_one]
  rw [div_self (mul_ne_zero hNq hNq)]
  ring

/-- Every `materialAt` lookup into a list of materials with transparencies in
`[0,1]` yields a transparency in `[0,1]` (the out-of-range default has
transparency 0). -/
theorem materialAt_transparency_bounds (mats : List Material)
    (hm : ∀ m ∈ mats, 0 ≤ m.transparency ∧ m.transparency ≤ 1) (idx : ℕ) :
    0 ≤ (materialAt mats idx).transparency ∧ (materialAt mats idx).transparency ≤ 1 := by
  unfold materialAt
  rw [List.getD_eq_getElem?_getD]
  cases hx : mats[idx - 1]? with
  | none => exact ⟨le_refl 0, by norm_num [defaultMaterial]⟩
  | some m => exact hm m (List.getElem?_mem hx)

/-- Per-sample transmittance invariant: whatever dispatcher the shadow walk
consults, if every material transparency is in `[0,1]` then the traced
transmittance stays in `[0,1]` (it starts at the accumulated value and only
ever multiplies by transparencies or collapses to 0). -/
theorem traceShadowRay_bounds (find : Vec3 → Vec3 → Option SceneHit)
    (mats : List Material)
    (hm : ∀ m ∈ mats, 0 ≤ m.transparency ∧ m.transparency ≤ 1) :
    ∀ (fuel : ℕ) (o d : Vec3) (rem acc : ℚ), 0 ≤ acc → acc ≤ 1 →
      0 ≤ traceShadowRay find mats fuel o d rem acc ∧
      traceShadowRay find mats fuel o d rem acc ≤ 1 := by
  intro fuel
  induction fuel with
  | zero => intro o d rem acc h0 h1; exact ⟨h0, h1⟩
  | succ n ih =>
    intro o d rem acc h0 h1
    simp only [traceShadowRay]
    split_ifs with hrem
    · cases hfind : find o d with
      | none => exact ⟨h0, h1⟩
      | some h =>
        dsimp only
        have htr := materialAt_transparency_bounds mats hm h.surface.material_index
        split_ifs with hdist hz
        · exact ⟨h0, h1⟩
        · norm_num
        · exact ih _ _ _ _ (mul_nonneg h0 htr.1) (mul_le_one₀ h1 htr.1 htr.2)
    · exact ⟨h0, h1⟩

/-- The property claimed of `compute_shadow_intensity`: the returned
visibility lies in `[1 - s, 1]`, and every per-sample traced transmittance
lies in `[0, 1]`. -/
def shadowBounds (sq : SqrtFn) (rand : ℕ → ℚ) (fuel : ℕ) (eng : LightingEngine)
    (hitPoint : Vec3) (light : Light) : Prop :=
  1 - light.shadow_intensity ≤ eng.computeShadowIntensity sq rand fuel hitPoint light ∧
  eng.computeShadowIntensity sq rand fuel hitPoint light ≤ 1 ∧
  ∀ (find : Vec3 → Vec3 → Option SceneHit) (f : ℕ) (o d : Vec3) (rem acc : ℚ),
    0 ≤ acc → acc ≤ 1 →
    0 ≤ traceShadowRay find eng.materials f o d rem acc ∧
    traceShadowRay find eng.materials f o d rem acc ≤ 1

/-- Claim C10: for every hit point, light with shadow intensity `s ∈ [0,1]`,
and scene whose materials all have transparency in `[0,1]`,
`compute_shadow_intensity` returns a value in `[1-s, 1]`, and each per-sample
traced transmittance lies in `[0,1]`.  (On the source as written the sampler
always returns exactly 1, which is inside the interval.) -/
theorem claim10_shadow_bounds (sq : SqrtFn) (rand : ℕ → ℚ) (fuel : ℕ)
    (eng : LightingEngine) (hitPoint : Vec3) (light : Light)
    (hN : 1 ≤ eng.num_shadow_rays)
    (hs0 : 0 ≤ light.shadow_intensity) (_hs1 : light.shadow_intensity ≤ 1)
    (hm : ∀ m ∈ eng.materials, 0 ≤ m.transparency ∧ m.transparency ≤ 1) :
    shadowBounds sq rand fuel eng hitPoint light := by
  have h1 := computeShadowIntensity_placeholder sq rand fuel eng hitPoint light hN
  refine ⟨by rw [h1]; linarith, by rw [h1], ?_⟩
  intro find f o d rem acc h0 hacc
  exact traceShadowRay_bounds find eng.materials hm f o d rem acc h0 hacc

/-- Fully opaque material (transparency 0). -/
def blockMat : Material := ⟨⟨175, 175, 175⟩, ⟨255, 255, 255⟩, 0, 10, 0⟩

/-- Sphere sitting between the origin and the light at `(0,3,0)`. -/
def blockSphere : Sphere := ⟨⟨0, 3 / 2, 0⟩, 1 / 2, 1⟩

/-- Point light at `(0,3,0)` with full shadow intensity and zero area
radius (so the single stratified sample is deterministic). -/
def shadowLight : Light := ⟨⟨0, 3, 0⟩, ⟨1, 1, 1⟩, 1, 1, 0⟩

/-- Scene for the shadow claims: one opaque sphere blocking the light, one
shadow ray (`N = 1`). -/
def shadowEngine : LightingEngine :=
  ⟨⟨0, 0, 0⟩, 3, 1, [blockMat], [shadowLight], [Surface.sph blockSphere]⟩

/-- Witness for C10: the bounds at the concrete blocked scene. -/
theorem claim10_shadow_bounds_witness :
    shadowBounds exSqrt exRand 1 shadowEngine ⟨0, 0, 0⟩ shadowLight :=
  claim10_shadow_bounds exSqrt exRand 1 shadowEngine ⟨0, 0, 0⟩ shadowLight
    (by decide) (by norm_num [shadowLight]) (by norm_num [shadowLight])
    (by intro m hmem; simp only [shadowEngine, List.mem_singleton] at hmem;
        subst hmem; norm_num [blockMat])

/-- Claim C3: the spec says an unobstructed light yields exactly `1.0` and a
fully opaque blocker yields exactly `1 - light.shadow_intensity`.  The code
violates the blocker half: `compute_shadow_intensity` returns `1` for every
scene and every fuel, because `_trace_shadow_ray` consults the module-level
placeholder `find_nearest_intersection` of `lighting.py`, which never reports
a hit — here even though the opaque sphere demonstrably intersects the shadow
ray at distance `0.999 < 3` and the light has shadow intensity 1 (so the
claimed value is `0`).  This contradicts `_trace_shadow_ray`'s own docstring
("0.0 = fully blocked (opaque object in the way)"), so the claim is recorded
as a code bug; this theorem evaluates the code at the failing input. -/
theorem claim3_shadow_code_bug :
    (∀ fuel, shadowEngine.computeShadowIntensity exSqrt exRand fuel ⟨0, 0, 0⟩ shadowLight = 1) ∧
    Sphere.intersect exSqrt blockSphere ⟨⟨0, 1 / 1000, 0⟩, ⟨0, 1, 0⟩⟩ =
      some ⟨⟨0, 1, 0⟩, ⟨0, -1, 0⟩, 999 / 1000⟩ ∧
    (materialAt shadowEngine.materials (Surface.sph blockSphere).material_index).transparency
      = 0 ∧
    shadowLight.shadow_intensity = 1 ∧ (999 / 1000 : ℚ) < 3 := by
  refine ⟨fun fuel => computeShadowIntensity_placeholder exSqrt exRand fuel shadowEngine
    ⟨0, 0, 0⟩ shadowLight (by decide), ?_, rfl, rfl, by norm_num⟩
  with_unfolding_all rfl

/-- At or beyond the recursion bound, the reflection term of `compute_color`
is zero whatever the material (the guard `recursion_depth < max_recursion`
fails). -/
theorem reflectionTerm_at_max (eng : LightingEngine) (hp rd n : Vec3) (m : Material)
    (depth : ℕ) (hdepth : eng.max_recursion ≤ depth) :
    eng.reflectionTerm hp rd n m depth = 0 := by
  unfold LightingEngine.reflectionTerm
  rw [if_neg]
  rintro ⟨hlt, -⟩
  exact (Nat.not_lt.2 hdepth) hlt

/-- The transparency-weighted background term of `compute_color` always
equals `transparency • background_color` (for nonnegative transparency):
when the transparency branch is taken `compute_transparency` returns the
scene background, and when it is not taken the weight itself is zero. -/
theorem smul_backgroundTerm (eng : LightingEngine) (hp rd : Vec3) (m : Material)
    (depth : ℕ) (ht : 0 ≤ m.transparency) :
    m.transparency • eng.backgroundTerm hp rd m depth =
      m.transparency • eng.background_color := by
  unfold LightingEngine.backgroundTerm LightingEngine.computeTransparency
  split_ifs with h
  · rfl
  · rw [le_antisymm (not_lt.1 h) ht]
    simp

/-- Material with transparency 1/2 and no reflection, for the C2
counterexample. -/
def leakMat : Material := ⟨⟨200, 50, 50⟩, ⟨255, 255, 255⟩, 0, 30, 1 / 2⟩

/-- Engine with `maxRecursionDepth = 0`, background `(100,100,100)` and no
lights. -/
def leakEngine : LightingEngine := ⟨⟨100, 100, 100⟩, 0, 1, [leakMat], [], []⟩

/-- A hit on a surface using material 1. -/
def leakHit : SceneHit := ⟨Surface.sph ⟨⟨0, 0, 0⟩, 1, 1⟩, ⟨0, 0, 1⟩, ⟨0, 0, 1⟩, 4⟩

/-- Claim C2 counterexample: with `maxRecursionDepth = 0`, no lights, and a
material of transparency 1/2, `compute_color` returns `(50,50,50)` — the
background blended in by the transparency term — while the per-light direct
sum is zero, so the returned color is not "only direct diffuse+specular
lighting" as the claim states: the transparency branch is not guarded by the
recursion depth, and `compute_transparency` returns the scene background. -/
theorem claim2_counterexample :
    leakEngine.max_recursion = 0 ∧
    leakEngine.computeColor exSqrt exRand 1 ⟨0, 0, 5⟩ ⟨0, 0, -1⟩ (some leakHit) 0 =
      ⟨50, 50, 50⟩ ∧
    clip3 (leakEngine.directLighting exSqrt exRand 1 leakHit.hitPoint leakHit.normal
      ⟨0, 0, -1⟩ (materialAt leakEngine.materials leakHit.surface.material_index)) =
      ⟨0, 0, 0⟩ ∧
    (⟨50, 50, 50⟩ : Vec3) ≠ ⟨0, 0, 0⟩ := by
  refine ⟨rfl, by with_unfolding_all rfl, by with_unfolding_all rfl, ?_⟩
  intro h
  injection h with h1 _ _
  exact absurd h1 (by norm_num)

/-- Claim C2 (amended): at any depth at or beyond `maxRecursionDepth` (in
particular at depth 0 with `maxRecursionDepth = 0`) the reflection
contribution of `compute_color` is zero regardless of the material, but the
transparency term is not depth-guarded: the result is
`clip(background*t + direct*(1-t), 0, 255)`, which reduces to the direct
lighting alone exactly when the material's transparency is 0. -/
theorem claim2_amended (sq : SqrtFn) (rand : ℕ → ℚ) (fuel : ℕ)
    (eng : LightingEngine) (o dir : Vec3) (d : SceneHit) (depth : ℕ)
    (hdepth : eng.max_recursion ≤ depth)
    (ht : 0 ≤ (materialAt eng.materials d.surface.material_index).transparency) :
    eng.computeColor sq rand fuel o dir (some d) depth =
      clip3 ((materialAt eng.materials d.surface.material_index).transparency •
          eng.background_color +
        (1 - (materialAt eng.materials d.surface.material_index).transparency) •
          eng.directLighting sq rand fuel d.hitPoint d.normal dir
            (materialAt eng.materials d.surface.material_index)) ∧
    ((materialAt eng.materials d.surface.material_index).transparency = 0 →
      eng.computeColor sq rand fuel o dir (some d) depth =
        clip3 (eng.directLighting sq rand fuel d.hitPoint d.normal dir
          (materialAt eng.materials d.surface.material_index))) := by
  have hc : eng.computeColor sq rand fuel o dir (some d) depth =
      clip3 ((materialAt eng.materials d.surface.material_index).transparency •
          eng.background_color +
        (1 - (materialAt eng.materials d.surface.material_index).transparency) •
          eng.directLighting sq rand fuel d.hitPoint d.normal dir
            (materialAt eng.materials d.surface.material_index)) := by
    show clip3 _ = _
    rw [reflectionTerm_at_max eng d.hitPoint dir d.normal _ depth hdepth, Vec3.add_zero,
      smul_backgroundTerm eng d.hitPoint dir _ depth ht]
  refine ⟨hc, fun h0 => ?_⟩
  rw [hc, h0]
  simp

/-- Witness material for the C2/C4 amended statements: transparency 0, no
reflection. -/
def plainMat : Material := ⟨⟨200, 50, 50⟩, ⟨255, 255, 255⟩, 0, 30, 0⟩

/-- Witness engine: no lights, recursion bound 2. -/
def plainEngine : LightingEngine := ⟨⟨10, 20, 30⟩, 2, 1, [plainMat], [], []⟩

/-- Witness hit on material 1. -/
def plainHit : SceneHit := ⟨Surface.sph ⟨⟨0, 0, 0⟩, 1, 1⟩, ⟨0, 0, 1⟩, ⟨0, 0, 1⟩, 4⟩

/-- Witness for C2: the amended theorem applied at a concrete engine and hit,
at depth 5 ≥ maxRecursionDepth = 2. -/
theorem claim2_amended_witness :
    plainEngine.computeColor exSqrt exRand 1 ⟨0, 0, 5⟩ ⟨0, 0, -1⟩ (some plainHit) 5 =
      clip3 ((materialAt plainEngine.materials plainHit.surface.material_index).transparency •
          plainEngine.background_color +
        (1 - (materialAt plainEngine.materials plainHit.surface.material_index).transparency) •
          plainEngine.directLighting exSqrt exRand 1 plainHit.hitPoint plainHit.normal
            ⟨0, 0, -1⟩ (materialAt plainEngine.materials plainHit.surface.material_index)) ∧
    ((materialAt plainEngine.materials plainHit.surface.material_index).transparency = 0 →
      plainEngine.computeColor exSqrt exRand 1 ⟨0, 0, 5⟩ ⟨0, 0, -1⟩ (some plainHit) 5 =
        clip3 (plainEngine.directLighting exSqrt exRand 1 plainHit.hitPoint plainHit.normal
          ⟨0, 0, -1⟩ (materialAt plainEngine.materials plainHit.surface.material_index))) :=
  claim2_amended exSqrt exRand 1 plainEngine ⟨0, 0, 5⟩ ⟨0, 0, -1⟩ plainHit 5
    (by decide) (by with_unfolding_all exact le_refl 0)

/-- Claim C4: for every non-`None` intersection, `compute_color` returns
`clip(backgroundTerm*t + directLighting*(1-t) + reflectionTerm, 0, 255)`
per channel, with the direct lighting being the additive sum of per-light
contributions and the reflection term added unweighted by transparency; and
for a material with transparency 0 and reflection color `(0,0,0)` the result
is exactly the clamped per-light sum. -/
theorem claim4_composition (sq : SqrtFn) (rand : ℕ → ℚ) (fuel : ℕ)
    (eng : LightingEngine) (o dir : Vec3) (d : SceneHit) (depth : ℕ) :
    eng.computeColor sq rand fuel o dir (some d) depth =
      clip3 ((materialAt eng.materials d.surface.material_index).transparency •
          eng.backgroundTerm d.hitPoint dir
            (materialAt eng.materials d.surface.material_index) depth +
        (1 - (materialAt eng.materials d.surface.material_index).transparency) •
          eng.directLighting sq rand fuel d.hitPoint d.normal dir
            (materialAt eng.materials d.surface.material_index) +
        eng.reflectionTerm d.hitPoint dir d.normal
          (materialAt eng.materials d.surface.material_index) depth) ∧
    ((materialAt eng.materials d.surface.material_index).transparency = 0 →
      (materialAt eng.materials d.surface.material_index).reflection_color = ⟨0, 0, 0⟩ →
      eng.computeColor sq rand fuel o dir (some d) depth =
        clip3 (vsum (eng.lights.map (fun light =>
          eng.computeLightContribution sq rand fuel d.hitPoint d.normal dir
            (materialAt eng.materials d.surface.material_index) light)))) := by
  refine ⟨rfl, fun h0 hrc => ?_⟩
  have hbg : eng.backgroundTerm d.hitPoint dir
      (materialAt eng.materials d.surface.material_index) depth = 0 := by
    unfold LightingEngine.backgroundTerm
    rw [if_neg]
    rw [h0]
    exact lt_irrefl 0
  have hrefl : eng.reflectionTerm d.hitPoint dir d.normal
      (materialAt eng.materials d.surface.material_index) depth = 0 := by
    unfold LightingEngine.reflectionTerm
    rw [if_neg]
    rintro ⟨-, hpos⟩
    rw [hrc] at hpos
    simp at hpos
  show clip3 _ = _
  rw [hbg, hrefl, h0, Vec3.smul_zero, Vec3.add_zero, Vec3.zero_add, sub_zero, Vec3.one_smul]
  rfl

/-- Witness for C4: the composition theorem applied at a concrete engine and
hit whose material has transparency 0 and zero reflection color. -/
theorem claim4_composition_witness :
    plainEngine.computeColor exSqrt exRand 1 ⟨0, 0, 5⟩ ⟨0, 0, -1⟩ (some plainHit) 0 =
      clip3 (vsum (plainEngine.lights.map (fun light =>
        plainEngine.computeLightContribution exSqrt exRand 1 plainHit.hitPoint plainHit.normal
          ⟨0, 0, -1⟩ (materialAt plainEngine.materials plainHit.surface.material_index) light))) :=
  (claim4_composition exSqrt exRand 1 plainEngine ⟨0, 0, 5⟩ ⟨0, 0, -1⟩ plainHit 0).2
    (by with_unfolding_all rfl) (by with_unfolding_all rfl)

/-- The discriminant `b^2 - 4ac` computed by `Sphere.intersect`. -/
def sphereDisc (s : Sphere) (r : Ray) : ℚ :=
  (2 * (r.origin - s.position).dot r.direction) ^ 2 -
    4 * (r.direction.dot r.direction) *
      ((r.origin - s.position).dot (r.origin - s.position) - s.radius ^ 2)

/-- The two quadratic roots `(-b ∓ sqrt(disc)) / 2a` computed by
`Sphere.intersect`. -/
def sphereRoots (sq : SqrtFn) (s : Sphere) (r : Ray) : ℚ × ℚ :=
  let b := 2 * (r.origin - s.position).dot r.direction
  let sd := sq (sphereDisc s r)
  ((-b - sd) / (2 * (r.direction.dot r.direction)),
    (-b + sd) / (2 * (r.direction.dot r.direction)))

/-- `Sphere.intersect` laid out by its branches, in terms of the discriminant
and the two roots. -/
theorem sphere_intersect_cases (sq : SqrtFn) (s : Sphere) (r : Ray) :
    s.intersect sq r =
      if sphereDisc s r < 0 then none
      else if (sphereRoots sq s r).1 > epsHit then
        some ⟨r.pointAt (sphereRoots sq s r).1,
          s.get_normal (r.pointAt (sphereRoots sq s r).1), (sphereRoots sq s r).1⟩
      else if (sphereRoots sq s r).2 > epsHit then
        some ⟨r.pointAt (sphereRoots sq s r).2,
          s.get_normal (r.pointAt (sphereRoots sq s r).2), (sphereRoots sq s r).2⟩
      else none := rfl

/-- Root of a monic quadratic given by the explicit formula with an exact
square root of the discriminant. -/
theorem quadratic_root (B C S t : ℚ) (hS : S * S = B ^ 2 - 4 * C)
    (ht : t = (-B - S) / 2 ∨ t = (-B + S) / 2) : t ^ 2 + B * t + C = 0 := by
  rcases ht with h | h <;> subst h
  · field_simp
    linear_combination 2 * hS
  · field_simp
    linear_combination 2 * hS

/-- Squared distance from a point along a ray to a center, expanded. -/
theorem pointAt_normSq (r : Ray) (c : Vec3) (t : ℚ) :
    (r.pointAt t - c).dot (r.pointAt t - c) =
      (r.origin - c).dot (r.origin - c) + 2 * ((r.origin - c).dot r.direction) * t +
        t ^ 2 * (r.direction.dot r.direction) := by
  rcases r with ⟨⟨ox, oy, oz⟩, ⟨dx, dy, dz⟩⟩
  rcases c with ⟨cx, cy, cz⟩
  simp only [Ray.pointAt, Vec3.dot, Vec3.sub_def, Vec3.add_def, Vec3.smul_def]
  ring

/-- Either quadratic root really lies on the sphere: for a unit direction and
an exact square root of the discriminant, the point at the root parameter has
squared distance `radius^2` from the center. -/
theorem sphereRoots_on_sphere (sq : SqrtFn) (s : Sphere) (r : Ray)
    (hunit : r.direction.dot r.direction = 1)
    (hsq : sq (sphereDisc s r) * sq (sphereDisc s r) = sphereDisc s r) (t : ℚ)
    (ht : t = (sphereRoots sq s r).1 ∨ t = (sphereRoots sq s r).2) :
    (r.pointAt t - s.position).dot (r.pointAt t - s.position) = s.radius ^ 2 := by
  have hd : sphereDisc s r = (2 * (r.origin - s.position).dot r.direction) ^ 2 -
      4 * ((r.origin - s.position).dot (r.origin - s.position) - s.radius ^ 2) := by
    unfold sphereDisc
    rw [hunit]
    ring
  have hS : sq (sphereDisc s r) * sq (sphereDisc s r) =
      (2 * (r.origin - s.position).dot r.direction) ^ 2 -
        4 * ((r.origin - s.position).dot (r.origin - s.position) - s.radius ^ 2) := by
    rw [hsq, hd]
  have ht' : t = (-(2 * (r.origin - s.position).dot r.direction) - sq (sphereDisc s r)) / 2 ∨
      t = (-(2 * (r.origin - s.position).dot r.direction) + sq (sphereDisc s r)) / 2 := by
    rcases ht with h | h
    · left
      rw [h]
      unfold sphereRoots
      rw [hunit, mul_one]
    · right
      rw [h]
      unfold sphereRoots
      rw [hunit, mul_one]
  have hq := quadratic_root _ _ _ t hS ht'
  rw [pointAt_normSq r s.position t, hunit, mul_one]
  linear_combination hq

/-- For a unit direction and a nonnegative square root, the first root is the
smaller one. -/
theorem sphereRoots_le (sq : SqrtFn) (s : Sphere) (r : Ray)
    (hunit : r.direction.dot r.direction = 1) (hpos : 0 ≤ sq (sphereDisc s r)) :
    (sphereRoots sq s r).1 ≤ (sphereRoots sq s r).2 := by
  unfold sphereRoots
  rw [hunit]
  dsimp only
  have h2 : (0 : ℚ) < 2 * 1 := by norm_num
  rw [div_le_div_iff h2 h2]
  nlinarith [hpos]

/-- The property claimed of `Sphere.intersect`: no hit when the discriminant
is negative or neither root exceeds `1e-4`; otherwise the hit carries the
smallest root strictly greater than `1e-4` as its distance, its point lies at
that parameter along the ray and on the sphere (squared-norm form), and its
normal is `(hitPoint - center) / radius`. -/
def sphereIntersectOk (sq : SqrtFn) (s : Sphere) (r : Ray) : Prop :=
  (sphereDisc s r < 0 → s.intersect sq r = none) ∧
  ((sphereRoots sq s r).1 ≤ epsHit → (sphereRoots sq s r).2 ≤ epsHit →
    s.intersect sq r = none) ∧
  (match s.intersect sq r with
   | none => sphereDisc s r < 0 ∨
       ((sphereRoots sq s r).1 ≤ epsHit ∧ (sphereRoots sq s r).2 ≤ epsHit)
   | some h =>
       epsHit < h.distance ∧
       (h.distance = (sphereRoots sq s r).1 ∨ h.distance = (sphereRoots sq s r).2) ∧
       (epsHit < (sphereRoots sq s r).1 → h.distance ≤ (sphereRoots sq s r).1) ∧
       (epsHit < (sphereRoots sq s r).2 → h.distance ≤ (sphereRoots sq s r).2) ∧
       h.hitPoint = r.pointAt h.distance ∧
       (h.hitPoint - s.position).dot (h.hitPoint - s.position) = s.radius ^ 2 ∧
       h.normal = (1 / s.radius) • (h.hitPoint - s.position))

/-- Claim C5: for every ray with unit direction and sphere of positive
radius, `Sphere.intersect` behaves as specified: none exactly when the
discriminant is negative or no root clears the `1e-4` guard, otherwise the
smallest qualifying root with on-sphere hit point and outward unit-scaled
normal.  The square-root oracle is only assumed exact and nonnegative when
the discriminant is nonnegative — the only case in which the source takes a
square root — so the negative-discriminant miss branch is covered without
any assumption on the oracle. -/
theorem claim5_sphere (sq : SqrtFn) (s : Sphere) (r : Ray)
    (hunit : r.direction.dot r.direction = 1) (_hr : 0 < s.radius)
    (hsq : 0 ≤ sphereDisc s r →
      sq (sphereDisc s r) * sq (sphereDisc s r) = sphereDisc s r)
    (hpos : 0 ≤ sphereDisc s r → 0 ≤ sq (sphereDisc s r)) :
    sphereIntersectOk sq s r := by
  unfold sphereIntersectOk
  rw [sphere_intersect_cases]
  rcases lt_or_le (sphereDisc s r) 0 with hd | hd
  · rw [if_pos hd]
    exact ⟨fun _ => rfl, fun _ _ => rfl, Or.inl hd⟩
  · rw [if_neg (not_lt.2 hd)]
    have ht12 := sphereRoots_le sq s r hunit (hpos hd)
    split_ifs with h1 h2
    · refine ⟨fun hd' => absurd hd' (not_lt.2 hd),
        fun ha _ => absurd h1 (not_lt.2 ha), ?_⟩
      dsimp only
      exact ⟨h1, Or.inl rfl, fun _ => le_refl _, fun _ => ht12, rfl,
        sphereRoots_on_sphere sq s r hunit (hsq hd) _ (Or.inl rfl), rfl⟩
    · refine ⟨fun hd' => absurd hd' (not_lt.2 hd),
        fun _ hb => absurd h2 (not_lt.2 hb), ?_⟩
      dsimp only
      refine ⟨h2, Or.inr rfl, fun hx => absurd hx (by exact h1), fun _ => le_refl _, rfl,
        sphereRoots_on_sphere sq s r hunit (hsq hd) _ (Or.inr rfl), rfl⟩
    · exact ⟨fun hd' => absurd hd' (not_lt.2 hd), fun _ _ => rfl,
        Or.inr ⟨not_lt.1 h1, not_lt.1 h2⟩⟩

/-- Witness for C5: the sphere contract at the concrete example
(ray `(0,0,5) → (0,0,-1)` against the unit sphere, discriminant 4). -/
theorem claim5_sphere_witness : sphereIntersectOk exSqrt exSphere exRay := by
  have hp : (0 : ℚ) ≤ exSqrt (sphereDisc exSphere exRay) := by
    have h : exSqrt (sphereDisc exSphere exRay) = 2 := by with_unfolding_all rfl
    rw [h]
    norm_num
  exact claim5_sphere exSqrt exSphere exRay (by with_unfolding_all rfl) (by norm_num [exSphere])
    (fun _ => by with_unfolding_all rfl) (fun _ => hp)

/-- The property claimed of `InfinitePlane.intersect`: a (near-)parallel
denominator or a `t` below `1e-4` yields no hit — including the degenerate
zero-length stored normal, which `normalize` leaves as the zero vector — and
any returned hit was computed with `|denom| ≥ 1e-6` (so the division only
happens under the guard), at parameter `t ≥ 1e-4` along the ray, with the
normalized plane normal.  The embedded function is total by construction. -/
def planeIntersectOk (sq : SqrtFn) (p : InfinitePlane) (r : Ray) : Prop :=
  (|r.direction.dot (normalize sq p.normal)| < epsPar → p.intersect sq r = none) ∧
  ((p.offset - r.origin.dot (normalize sq p.normal)) /
      (r.direction.dot (normalize sq p.normal)) < epsHit → p.intersect sq r = none) ∧
  (p.normal = ⟨0, 0, 0⟩ → p.intersect sq r = none) ∧
  (match p.intersect sq r with
   | none => True
   | some h =>
       epsPar ≤ |r.direction.dot (normalize sq p.normal)| ∧
       epsHit ≤ h.distance ∧
       h.distance = (p.offset - r.origin.dot (normalize sq p.normal)) /
         (r.direction.dot (normalize sq p.normal)) ∧
       h.hitPoint = r.pointAt h.distance ∧
       h.normal = normalize sq p.normal)

/-- Normalizing the zero vector gives the zero vector, whatever the oracle
returns on 0 (both branches of `normalize` fix the zero vector). -/
theorem normalize_zero_vec (sq : SqrtFn) : normalize sq ⟨0, 0, 0⟩ = ⟨0, 0, 0⟩ := by
  show (if sq ((⟨0, 0, 0⟩ : Vec3).dot ⟨0, 0, 0⟩) = 0 then (⟨0, 0, 0⟩ : Vec3)
      else (1 / sq ((⟨0, 0, 0⟩ : Vec3).dot ⟨0, 0, 0⟩)) • (⟨0, 0, 0⟩ : Vec3)) = ⟨0, 0, 0⟩
  split_ifs
  · rfl
  · simp

/-- Claim C7: `InfinitePlane.intersect` is total, treats near-parallel
denominators (including the zero-normal degeneracy) and sub-epsilon
parameters as no hit, and divides by the denominator only under the
`|denom| ≥ 1e-6` guard. -/
theorem claim7_plane (sq : SqrtFn) (p : InfinitePlane) (r : Ray) :
    planeIntersectOk sq p r := by
  unfold planeIntersectOk
  have key : p.intersect sq r =
      if |r.direction.dot (normalize sq p.normal)| < epsPar then none
      else if (p.offset - r.origin.dot (normalize sq p.normal)) /
          (r.direction.dot (normalize sq p.normal)) < epsHit then none
      else some ⟨r.pointAt ((p.offset - r.origin.dot (normalize sq p.normal)) /
          (r.direction.dot (normalize sq p.normal))), normalize sq p.normal,
        (p.offset - r.origin.dot (normalize sq p.normal)) /
          (r.direction.dot (normalize sq p.normal))⟩ := rfl
  rw [key]
  split_ifs with h1 h2
  · exact ⟨fun _ => rfl, fun _ => rfl, fun _ => rfl, trivial⟩
  · exact ⟨fun ha => absurd ha h1, fun _ => rfl, fun _ => rfl, trivial⟩
  · refine ⟨fun ha => absurd ha h1, fun hb => absurd hb h2, fun hz => ?_, ?_⟩
    · rw [hz, normalize_zero_vec] at h1
      exact absurd (by norm_num [Vec3.dot, epsPar]) h1
    · exact ⟨not_lt.1 h1, not_lt.1 h2, rfl, rfl, rfl⟩

/-- The horizontal plane `y = 0` of the spec's examples. -/
def exPlane : InfinitePlane := ⟨⟨0, 1, 0⟩, 0, 1⟩

/-- The ray `origin=(0,5,0)`, `direction=(0,-1,0)` of the spec's examples. -/
def planeRay : Ray := ⟨⟨0, 5, 0⟩, ⟨0, -1, 0⟩⟩

/-- Witness for C7: the plane contract at the concrete example, together with
the concrete hit it admits there. -/
theorem claim7_plane_witness :
    planeIntersectOk exSqrt exPlane planeRay ∧
    InfinitePlane.intersect exSqrt exPlane planeRay = some ⟨⟨0, 0, 0⟩, ⟨0, 1, 0⟩, 5⟩ :=
  ⟨claim7_plane exSqrt exPlane planeRay, by with_unfolding_all rfl⟩

theorem cross_dot_left (a b : Vec3) : (Vec3.cross a b).dot a = 0 := by
  rcases a with ⟨ax, ay, az⟩
  rcases b with ⟨bx, by', bz⟩
  simp only [Vec3.cross, Vec3.dot]
  ring

theorem cross_dot_right (a b : Vec3) : (Vec3.cross a b).dot b = 0 := by
  rcases a with ⟨ax, ay, az⟩
  rcases b with ⟨bx, by', bz⟩
  simp only [Vec3.cross, Vec3.dot]
  ring

theorem dot_comm (a b : Vec3) : a.dot b = b.dot a := by
  simp only [Vec3.dot]
  ring

/-- Lagrange identity for the squared norm of a cross product. -/
theorem cross_normSq (a b : Vec3) :
    (Vec3.cross a b).dot (Vec3.cross a b) = (a.dot a) * (b.dot b) - (a.dot b) ^ 2 := by
  rcases a with ⟨ax, ay, az⟩
  rcases b with ⟨bx, by', bz⟩
  simp only [Vec3.cross, Vec3.dot]
  ring

/-- `normalize` preserves orthogonality. -/
theorem normalize_dot_zero (sq : SqrtFn) (v w : Vec3) (h : v.dot w = 0) :
    (normalize sq v).dot w = 0 := by
  show (if sq (v.dot v) = 0 then v else (1 / sq (v.dot v)) • v).dot w = 0
  split_ifs
  · exact h
  · rcases v with ⟨vx, vy, vz⟩
    rcases w with ⟨wx, wy, wz⟩
    simp only [Vec3.dot, Vec3.smul_def] at h ⊢
    linear_combination (1 / sq (vx * vx + vy * vy + vz * vz)) * h

/-- The orthonormality property claimed of the shadow sampler's axes, with
the source's actual reference-axis selection rule (`|x| > 0.1`): `right` is
the normalized cross of the light direction with the selected reference, and
`right`, `up` are unit, mutually orthogonal, and orthogonal to the light
direction. -/
def shadowAxesOk (sq : SqrtFn) (d : Vec3) : Prop :=
  (shadowAxes sq d).1 =
    normalize sq (Vec3.cross d (if |d.x| > 1 / 10 then ⟨0, 1, 0⟩ else ⟨1, 0, 0⟩)) ∧
  (shadowAxes sq d).1.dot d = 0 ∧
  (shadowAxes sq d).1.dot (shadowAxes sq d).1 = 1 ∧
  (shadowAxes sq d).2.dot d = 0 ∧
  (shadowAxes sq d).2.dot (shadowAxes sq d).1 = 0 ∧
  (shadowAxes sq d).2.dot (shadowAxes sq d).2 = 1

/-- Claim C8 counterexample: the light direction `(0,0,1)` is orthogonal to
world-up (their dot product is 0, so it is not "nearly parallel" to world-up
under any reading, and its cross product with world-up is not degenerate),
yet the code switches to the world-X reference for it: the selection tests
`|direction.x| > 0.1`, not near-parallelism to world-up.  This refutes
"switching to world-X exactly when the light direction is nearly parallel to
world-up". -/
theorem claim8_counterexample :
    shadowRef ⟨0, 0, 1⟩ = ⟨1, 0, 0⟩ ∧
    (⟨0, 0, 1⟩ : Vec3).dot ⟨0, 1, 0⟩ = 0 ∧
    Vec3.cross ⟨0, 0, 1⟩ ⟨0, 1, 0⟩ ≠ 0 := by
  refine ⟨by norm_num [shadowRef], by norm_num [Vec3.dot], ?_⟩
  simp only [Vec3.cross, Vec3.zero_def]
  norm_num [Vec3.mk.injEq]

/-- Claim C8 (amended): the sampler picks its reference axis by the light
direction's x-component — world-up when `|x| > 0.1`, world-X otherwise — and,
for a unit light direction whose selected cross product is non-degenerate,
under an exact square root the two axes are orthonormal and perpendicular to
the light direction. -/
theorem claim8_amended (sq : SqrtFn) (d : Vec3) (hd : d.dot d = 1)
    (hcr : (Vec3.cross d (shadowRef d)).dot (Vec3.cross d (shadowRef d)) ≠ 0)
    (hsq1 : sq ((Vec3.cross d (shadowRef d)).dot (Vec3.cross d (shadowRef d))) *
        sq ((Vec3.cross d (shadowRef d)).dot (Vec3.cross d (shadowRef d))) =
      (Vec3.cross d (shadowRef d)).dot (Vec3.cross d (shadowRef d)))
    (hsqone : sq 1 * sq 1 = 1) :
    shadowAxesOk sq d := by
  have h1 : (normalize sq (Vec3.cross d (shadowRef d))).dot d = 0 :=
    normalize_dot_zero sq _ d (cross_dot_left d (shadowRef d))
  have h2 : (normalize sq (Vec3.cross d (shadowRef d))).dot
      (normalize sq (Vec3.cross d (shadowRef d))) = 1 :=
    normalize_dot_self sq _ hcr hsq1
  have hcu_d : (Vec3.cross d (normalize sq (Vec3.cross d (shadowRef d)))).dot d = 0 :=
    cross_dot_left d _
  have hcu_r : (Vec3.cross d (normalize sq (Vec3.cross d (shadowRef d)))).dot
      (normalize sq (Vec3.cross d (shadowRef d))) = 0 :=
    cross_dot_right d _
  have hcu_norm : (Vec3.cross d (normalize sq (Vec3.cross d (shadowRef d)))).dot
      (Vec3.cross d (normalize sq (Vec3.cross d (shadowRef d)))) = 1 := by
    rw [cross_normSq, hd, h2, dot_comm d _, h1]
    norm_num
  refine ⟨rfl, h1, h2, ?_, ?_, ?_⟩
  · exact normalize_dot_zero sq _ d hcu_d
  · exact normalize_dot_zero sq _ _ hcu_r
  · apply normalize_dot_self sq _ (by rw [hcu_norm]; exact one_ne_zero)
    rw [hcu_norm]
    exact hsqone

/-- Witness for C8: the amended orthonormality at the concrete direction
`(0,0,1)` (which selects the world-X reference). -/
theorem claim8_amended_witness : shadowAxesOk exSqrt ⟨0, 0, 1⟩ := by
  have hc : (Vec3.cross ⟨0, 0, 1⟩ (shadowRef ⟨0, 0, 1⟩)).dot
      (Vec3.cross ⟨0, 0, 1⟩ (shadowRef ⟨0, 0, 1⟩)) = 1 := by
    with_unfolding_all rfl
  exact claim8_amended exSqrt ⟨0, 0, 1⟩ (by norm_num [Vec3.dot])
    (by rw [hc]; exact one_ne_zero) (by rw [hc]; with_unfolding_all rfl)
    (by with_unfolding_all rfl)

/-- A parallel axis whose origin coordinate lies outside the slab makes the
loop body return `None` from any state. -/
theorem slabStep_parallel_outside (c : Cube) (r : Ray) (st : SlabState) (i : ℕ)
    (hpar : |axisVal r.direction i| < epsPar)
    (hout : axisVal r.origin i < slabLo c i ∨ axisVal r.origin i > slabHi c i) :
    slabStep c r st i = none := by
  simp only [slabStep]
  rw [if_pos hpar, if_pos hout]

/-- The first non-parallel axis processed from the initial state records its
entry, exit and face normal (the overlap check cannot fail against the
initial infinite bounds). -/
theorem slabStep_first (c : Cube) (r : Ray) (i : ℕ)
    (hnp : ¬ |axisVal r.direction i| < epsPar) :
    slabStep c r ⟨none, none, ⟨0, 0, 0⟩⟩ i =
      some ⟨some (slabEntry c r i), some (slabExit c r i),
        axisNormal i (axisVal r.direction i)⟩ := by
  simp only [slabStep]
  rw [if_neg hnp]
  simp only [tLtMin, tGtMax, minGtMax, if_true, decide_eq_true_eq]
  rw [if_neg (not_lt.2 (slabEntry_le_slabExit c r i))]

/-- A later non-parallel axis processed from a finite state, failing case:
if the tightened bounds cross, the step returns `None`. -/
theorem slabStep_some_fail (c : Cube) (r : Ray) (i : ℕ) (tm tM : ℚ) (nr : Vec3)
    (hnp : ¬ |axisVal r.direction i| < epsPar)
    (hgt : min tM (slabExit c r i) < max tm (slabEntry c r i)) :
    slabStep c r ⟨some tm, some tM, nr⟩ i = none := by
  simp only [slabStep]
  rw [if_neg hnp]
  split_ifs with h1 h2 h3 h4 h5 h6
  all_goals simp only [tLtMin, tGtMax, minGtMax, decide_eq_true_eq] at *
  all_goals (rcases min_choice tM (slabExit c r i) with hmin | hmin <;>
    rcases max_choice tm (slabEntry c r i) with hmax | hmax <;>
    linarith [min_le_left tM (slabExit c r i), min_le_right tM (slabExit c r i),
      le_max_left tm (slabEntry c r i), le_max_right tm (slabEntry c r i)])

theorem slabStep_some_ok (c : Cube) (r : Ray) (i : ℕ) (tm tM : ℚ) (nr : Vec3)
    (hnp : ¬ |axisVal r.direction i| < epsPar)
    (hle : max tm (slabEntry c r i) ≤ min tM (slabExit c r i)) :
    slabStep c r ⟨some tm, some tM, nr⟩ i =
      some ⟨some (max tm (slabEntry c r i)), some (min tM (slabExit c r i)),
        if tm < slabEntry c r i then axisNormal i (axisVal r.direction i) else nr⟩ := by
  simp only [slabStep]
  rw [if_neg hnp]
  split_ifs with h1 h2 h3 h4 h5 h6 h7 h8 h9 h10
  all_goals simp only [tLtMin, tGtMax, minGtMax, decide_eq_true_eq] at *
  all_goals (first
    | exact absurd h1 h4
    | exact absurd h1 h6
    | exact absurd h9 h1
    | exact absurd h10 h1
    | (rcases min_choice tM (slabExit c r i) with hmin | hmin <;>
       rcases max_choice tm (slabEntry c r i) with hmax | hmax <;>
       linarith [min_le_left tM (slabExit c r i), min_le_right tM (slabExit c r i),
         le_max_left tm (slabEntry c r i), le_max_right tm (slabEntry c r i)])
    | (rw [max_eq_right (le_of_lt h1), min_eq_right (le_of_lt h2)])
    | (rw [max_eq_right (le_of_lt h1), min_eq_left (not_lt.1 h2)])
    | (rw [max_eq_left (not_lt.1 h1), min_eq_right (le_of_lt h7)])
    | (rw [max_eq_left (not_lt.1 h1), min_eq_left (not_lt.1 h7)])
    )

/-- The spec's running `tMin`: the maximum of the three per-axis entry
parameters. -/
def cubeTMin (c : Cube) (r : Ray) : ℚ :=
  max (max (slabEntry c r 0) (slabEntry c r 1)) (slabEntry c r 2)

/-- The spec's running `tMax`: the minimum of the three per-axis exit
parameters. -/
def cubeTMax (c : Cube) (r : Ray) : ℚ :=
  min (min (slabExit c r 0) (slabExit c r 1)) (slabExit c r 2)

/-- The slab-method contract claimed of `Cube.intersect` when no axis is
parallel: no hit exactly governed by the crossing of `tMin = max` of entries
and `tMax = min` of exits, the `tMin < 1e-4` fallback to `tMax` (no hit when
both are below the epsilon), the hit point evaluated on the ray at the chosen
parameter, and the normal being the face normal `-sign(D_i)` recorded on an
axis whose entry attains `tMin` (not recomputed from the hit point, also in
the fallback case). -/
def cubeSlabChar (c : Cube) (r : Ray) : Prop :=
  (cubeTMax c r < cubeTMin c r → Cube.intersect c r = none) ∧
  (cubeTMin c r ≤ cubeTMax c r →
    (epsHit ≤ cubeTMin c r →
      match Cube.intersect c r with
      | none => False
      | some h =>
          h.distance = cubeTMin c r ∧ h.hitPoint = r.pointAt (cubeTMin c r) ∧
          ∃ i, i < 3 ∧ slabEntry c r i = cubeTMin c r ∧
            h.normal = axisNormal i (axisVal r.direction i)) ∧
    (cubeTMin c r < epsHit → epsHit ≤ cubeTMax c r →
      match Cube.intersect c r with
      | none => False
      | some h =>
          h.distance = cubeTMax c r ∧ h.hitPoint = r.pointAt (cubeTMax c r) ∧
          ∃ i, i < 3 ∧ slabEntry c r i = cubeTMin c r ∧
            h.normal = axisNormal i (axisVal r.direction i)) ∧
    (cubeTMin c r < epsHit → cubeTMax c r < epsHit → Cube.intersect c r = none))

/-- `Cube.intersect` in terms of its slab-loop result, failing case. -/
theorem cube_intersect_of_chain_none (c : Cube) (r : Ray)
    (h : ((slabStep c r ⟨none, none, ⟨0, 0, 0⟩⟩ 0).bind (fun s => slabStep c r s 1)).bind
      (fun s => slabStep c r s 2) = none) :
    Cube.intersect c r = none := by
  unfold Cube.intersect
  rw [h]

/-- `Cube.intersect` in terms of its slab-loop result, finite-state case:
the final `t_min < 0.0001` fallback logic of the source. -/
theorem cube_intersect_of_chain_some (c : Cube) (r : Ray) (tmin tmax : ℚ) (nr : Vec3)
    (h : ((slabStep c r ⟨none, none, ⟨0, 0, 0⟩⟩ 0).bind (fun s => slabStep c r s 1)).bind
      (fun s => slabStep c r s 2) = some ⟨some tmin, some tmax, nr⟩) :
    Cube.intersect c r =
      if tmin < epsHit then
        (if tmax < epsHit then none else some ⟨r.pointAt tmax, nr, tmax⟩)
      else some ⟨r.pointAt tmin, nr, tmin⟩ := by
  unfold Cube.intersect
  rw [h]

/-- Part of C6: a parallel axis with the origin outside that axis's slab
short-circuits the whole intersection to no hit. -/
theorem cube_parallel_outside (c : Cube) (r : Ray) (i : ℕ) (hi : i < 3)
    (hpar : |axisVal r.direction i| < epsPar)
    (hout : axisVal r.origin i < slabLo c i ∨ axisVal r.origin i > slabHi c i) :
    Cube.intersect c r = none := by
  have hstep : ∀ st, slabStep c r st i = none := fun st =>
    slabStep_parallel_outside c r st i hpar hout
  apply cube_intersect_of_chain_none
  interval_cases i
  · rw [hstep]
    rfl
  · cases h0 : slabStep c r ⟨none, none, ⟨0, 0, 0⟩⟩ 0 with
    | none => rfl
    | some st =>
      show (slabStep c r st 1).bind (fun s => slabStep c r s 2) = none
      rw [hstep]
      rfl
  · cases h0 : slabStep c r ⟨none, none, ⟨0, 0, 0⟩⟩ 0 with
    | none => rfl
    | some st =>
      show (slabStep c r st 1).bind (fun s => slabStep c r s 2) = none
      cases h1 : slabStep c r st 1 with
      | none => rfl
      | some st2 =>
        show slabStep c r st2 2 = none
        exact hstep st2

/-- Part of C6: with all three axes non-parallel, `Cube.intersect` follows
the slab contract `cubeSlabChar`. -/
theorem cube_slab_characterization (c : Cube) (r : Ray)
    (hnp : ∀ i, i < 3 → ¬ |axisVal r.direction i| < epsPar) :
    cubeSlabChar c r := by
  have hnp0 := hnp 0 (by norm_num)
  have hnp1 := hnp 1 (by norm_num)
  have hnp2 := hnp 2 (by norm_num)
  have hs0 := slabStep_first c r 0 hnp0
  unfold cubeSlabChar cubeTMin cubeTMax
  rcases lt_or_le (min (slabExit c r 0) (slabExit c r 1))
      (max (slabEntry c r 0) (slabEntry c r 1)) with hc1 | hc1
  · have hs1 := slabStep_some_fail c r 1 (slabEntry c r 0) (slabExit c r 0)
      (axisNormal 0 (axisVal r.direction 0)) hnp1 hc1
    have hchain : Cube.intersect c r = none := by
      apply cube_intersect_of_chain_none
      rw [hs0]
      show (slabStep c r ⟨some (slabEntry c r 0), some (slabExit c r 0),
        axisNormal 0 (axisVal r.direction 0)⟩ 1).bind (fun s => slabStep c r s 2) = none
      rw [hs1]
      rfl
    have hTT : min (min (slabExit c r 0) (slabExit c r 1)) (slabExit c r 2) <
        max (max (slabEntry c r 0) (slabEntry c r 1)) (slabEntry c r 2) :=
      lt_of_le_of_lt (min_le_left _ _) (lt_of_lt_of_le hc1 (le_max_left _ _))
    exact ⟨fun _ => hchain, fun hle => absurd hle (not_le.2 hTT)⟩
  · have hs1 := slabStep_some_ok c r 1 (slabEntry c r 0) (slabExit c r 0)
      (axisNormal 0 (axisVal r.direction 0)) hnp1 hc1
    rcases lt_or_le (min (min (slabExit c r 0) (slabExit c r 1)) (slabExit c r 2))
        (max (max (slabEntry c r 0) (slabEntry c r 1)) (slabEntry c r 2)) with hc2 | hc2
    · have hs2 := slabStep_some_fail c r 2 (max (slabEntry c r 0) (slabEntry c r 1))
        (min (slabExit c r 0) (slabExit c r 1))
        (if slabEntry c r 0 < slabEntry c r 1 then axisNormal 1 (axisVal r.direction 1)
          else axisNormal 0 (axisVal r.direction 0)) hnp2 hc2
      have hchain : Cube.intersect c r = none := by
        apply cube_intersect_of_chain_none
        rw [hs0]
        show (slabStep c r ⟨some (slabEntry c r 0), some (slabExit c r 0),
          axisNormal 0 (axisVal r.direction 0)⟩ 1).bind (fun s => slabStep c r s 2) = none
        rw [hs1]
        show slabStep c r ⟨some (max (slabEntry c r 0) (slabEntry c r 1)),
          some (min (slabExit c r 0) (slabExit c r 1)),
          if slabEntry c r 0 < slabEntry c r 1 then axisNormal 1 (axisVal r.direction 1)
            else axisNormal 0 (axisVal r.direction 0)⟩ 2 = none
        exact hs2
      exact ⟨fun _ => hchain, fun hle => absurd hle (not_le.2 hc2)⟩
    · have hs2 := slabStep_some_ok c r 2 (max (slabEntry c r 0) (slabEntry c r 1))
        (min (slabExit c r 0) (slabExit c r 1))
        (if slabEntry c r 0 < slabEntry c r 1 then axisNormal 1 (axisVal r.direction 1)
          else axisNormal 0 (axisVal r.direction 0)) hnp2 hc2
      have hchain : ((slabStep c r ⟨none, none, ⟨0, 0, 0⟩⟩ 0).bind
          (fun s => slabStep c r s 1)).bind (fun s => slabStep c r s 2) =
          some ⟨some (max (max (slabEntry c r 0) (slabEntry c r 1)) (slabEntry c r 2)),
            some (min (min (slabExit c r 0) (slabExit c r 1)) (slabExit c r 2)),
            if max (slabEntry c r 0) (slabEntry c r 1) < slabEntry c r 2 then
              axisNormal 2 (axisVal r.direction 2)
            else if slabEntry c r 0 < slabEntry c r 1 then axisNormal 1 (axisVal r.direction 1)
            else axisNormal 0 (axisVal r.direction 0)⟩ := by
        rw [hs0]
        show (slabStep c r ⟨some (slabEntry c r 0), some (slabExit c r 0),
          axisNormal 0 (axisVal r.direction 0)⟩ 1).bind (fun s => slabStep c r s 2) = _
        rw [hs1]
        show slabStep c r ⟨some (max (slabEntry c r 0) (slabEntry c r 1)),
          some (min (slabExit c r 0) (slabExit c r 1)),
          if slabEntry c r 0 < slabEntry c r 1 then axisNormal 1 (axisVal r.direction 1)
            else axisNormal 0 (axisVal r.direction 0)⟩ 2 = _
        exact hs2
      have hkey := cube_intersect_of_chain_some c r _ _ _ hchain
      have hex : ∃ i, i < 3 ∧
          slabEntry c r i = max (max (slabEntry c r 0) (slabEntry c r 1)) (slabEntry c r 2) ∧
          (if max (slabEntry c r 0) (slabEntry c r 1) < slabEntry c r 2 then
             axisNormal 2 (axisVal r.direction 2)
           else if slabEntry c r 0 < slabEntry c r 1 then axisNormal 1 (axisVal r.direction 1)
           else axisNormal 0 (axisVal r.direction 0)) = axisNormal i (axisVal r.direction i) := by
        rcases lt_or_le (max (slabEntry c r 0) (slabEntry c r 1)) (slabEntry c r 2) with hA | hA
        · exact ⟨2, by norm_num, (max_eq_right hA.le).symm, if_pos hA⟩
        · rw [max_eq_left hA, if_neg (not_lt.2 hA)]
          rcases lt_or_le (slabEntry c r 0) (slabEntry c r 1) with hB | hB
          · exact ⟨1, by norm_num, (max_eq_right hB.le).symm, if_pos hB⟩
          · exact ⟨0, by norm_num, (max_eq_left hB).symm, if_neg (not_lt.2 hB)⟩
      refine ⟨fun hlt => absurd hlt (not_lt.2 hc2), fun _ => ⟨?_, ?_, ?_⟩⟩
      · intro hge
        rw [hkey, if_neg (not_lt.2 hge)]
        exact ⟨rfl, rfl, hex⟩
      · intro hlt hge
        rw [hkey, if_pos hlt, if_neg (not_lt.2 hge)]
        exact ⟨rfl, rfl, hex⟩
      · intro hlt1 hlt2
        rw [hkey, if_pos hlt1, if_pos hlt2]

/-- Cube of edge length 2 centered at the origin, material 1. -/
def exCube : Cube := ⟨⟨0, 0, 0⟩, 2, 1⟩

/-- Claim C6: `Cube.intersect` implements the slab method as specified —
a parallel axis with the origin outside its slab short-circuits to no hit;
with all axes non-parallel the result is governed by `tMin` (the max of the
per-axis entries, whose attaining axis records the face normal `-sign(D_i)`)
and `tMax` (the min of the per-axis exits), with no hit when they cross, the
`tMin < 1e-4` fallback to `tMax` (no hit when both are below the epsilon),
hit point evaluated on the ray at the chosen parameter, and the recorded
normal kept (not recomputed from the hit point); and the concrete example
ray `(0,0,5) → (0,0,-1)` against the edge-2 cube at the origin yields hit
point `(0,0,1)`, normal `(0,0,1)`, distance `4`. -/
theorem claim6_cube_slab :
    (∀ (c : Cube) (r : Ray) (i : ℕ), i < 3 → |axisVal r.direction i| < epsPar →
      (axisVal r.origin i < slabLo c i ∨ axisVal r.origin i > slabHi c i) →
      Cube.intersect c r = none) ∧
    (∀ (c : Cube) (r : Ray), (∀ i, i < 3 → ¬ |axisVal r.direction i| < epsPar) →
      cubeSlabChar c r) ∧
    Cube.intersect exCube exRay = some ⟨⟨0, 0, 1⟩, ⟨0, 0, 1⟩, 4⟩ :=
  ⟨cube_parallel_outside, cube_slab_characterization, by with_unfolding_all rfl⟩

/-- Witness for C6: the short-circuit applied to a ray parallel to the x-axis
starting outside the x-slab, and the slab contract applied to a diagonal ray
with no parallel axis. -/
theorem claim6_cube_slab_witness :
    Cube.intersect exCube ⟨⟨5, 0, 0⟩, ⟨0, 0, 1⟩⟩ = none ∧
    cubeSlabChar exCube ⟨⟨5, 5, 5⟩, ⟨-1, -1, -1⟩⟩ :=
  ⟨claim6_cube_slab.1 exCube ⟨⟨5, 0, 0⟩, ⟨0, 0, 1⟩⟩ 0 (by norm_num)
      (by norm_num [axisVal, epsPar])
      (by norm_num [axisVal, slabLo, slabHi, exCube]),
    claim6_cube_slab.2.1 exCube ⟨⟨5, 5, 5⟩, ⟨-1, -1, -1⟩⟩
      (by intro i hi; interval_cases i <;> norm_num [axisVal, epsPar])⟩

end Raytracer
